import Mathlib

/-!
Shallow embedding of `tcmalloc/deallocation_profiler.cc` (the deallocation
lifetime profiler).  C++ `double` arithmetic is modelled by exact rational
arithmetic (`ℚ`); machine integers are modelled by `ℕ`/`ℤ` with explicit
`% 2^64` where a narrowing conversion matters; `absl::Time` values are
modelled as rational nanosecond timestamps.  Fallible lookups return
`Option`.  All definitions follow the source file; the only definitions
taken from the specification's wording instead are explicitly marked, and
exist to be compared against the source ones.
-/

set_option maxHeartbeats 1000000

namespace DeallocProf

/-- Instruction-pointer values (`void*` entries of a captured stack). -/
abbrev IP := ℕ

/-- `const int64_t kMaxStackDepth = 64;` -/
def kMaxStackDepth : ℕ := 64

/-- `std::numeric_limits<double>::max()`, exactly: `2^1024 - 2^971`.
Written as an integer literal so that kernel evaluation is cheap. -/
def dblMax : ℚ := 179769313486231570814527423731704356798070567525844996598917476803157260780028538760589558632766878171540458953514382464234321326889464182768467546703537516986049910576551282076245490090389328944075868508455133942304583236903222948165808559332123348274797826204144723168738177180919299881250404026184124858368

theorem dblMax_eq_pow : dblMax = 2 ^ 1024 - 2 ^ 971 := by norm_num [dblMax]

/-- `struct DeallocationSampleRecord` (deallocation_profiler.cc:81-110).
`stack` models the meaningful prefix of the 64-slot `void* stack[64]`
array: the instruction pointers actually copied into the record. -/
structure DeallocationSampleRecord where
  weight : ℚ := 0
  requested_size : ℕ := 0
  requested_alignment : ℕ := 0
  allocated_size : ℕ := 0
  depth : ℕ
  stack : List IP
  creation_time : ℚ
  cpu_id : ℤ
  thread_id : ℤ
deriving DecidableEq

/-- `DeallocationSampleRecord::operator==` (deallocation_profiler.cc:102-109):
compares depth, the three sizes, and the stored stack prefix; `weight`,
`creation_time`, `cpu_id` and `thread_id` are excluded from identity. -/
def sameRecord (a b : DeallocationSampleRecord) : Prop :=
  a.depth = b.depth ∧ a.requested_size = b.requested_size ∧
    a.requested_alignment = b.requested_alignment ∧
    a.allocated_size = b.allocated_size ∧ a.stack = b.stack

instance (a b : DeallocationSampleRecord) : Decidable (sameRecord a b) := by
  unfold sameRecord; infer_instance

theorem sameRecord_refl (a : DeallocationSampleRecord) : sameRecord a a :=
  ⟨rfl, rfl, rfl, rfl, rfl⟩

theorem sameRecord_symm {a b : DeallocationSampleRecord} (h : sameRecord a b) :
    sameRecord b a := by
  obtain ⟨h1, h2, h3, h4, h5⟩ := h
  exact ⟨h1.symm, h2.symm, h3.symm, h4.symm, h5.symm⟩

theorem sameRecord_trans {a b c : DeallocationSampleRecord}
    (hab : sameRecord a b) (hbc : sameRecord b c) : sameRecord a c := by
  obtain ⟨h1, h2, h3, h4, h5⟩ := hab
  obtain ⟨g1, g2, g3, g4, g5⟩ := hbc
  exact ⟨h1.trans g1, h2.trans g2, h3.trans g3, h4.trans g4, h5.trans g5⟩

/-- `struct CpuThreadMatchingStatus` (deallocation_profiler.cc:113-122). -/
structure CpuThreadMatchingStatus where
  cpu_matched : Bool
  thread_matched : Bool
deriving DecidableEq

/-- The `value` member computed by the `CpuThreadMatchingStatus`
constructor: `(cpu_matched << 1) | thread_matched`. -/
def CpuThreadMatchingStatus.value (s : CpuThreadMatchingStatus) : ℕ :=
  2 * (if s.cpu_matched then 1 else 0) + (if s.thread_matched then 1 else 0)

/-- `struct RpcMatchingStatus` (deallocation_profiler.cc:124-137). -/
structure RpcMatchingStatus where
  value : ℕ
deriving DecidableEq

/-- `RpcMatchingStatus::ComputeValue` (deallocation_profiler.cc:125-131):
if both rpc ids are nonzero, return `alloc == dealloc` (so 1 when equal and
0 when different); otherwise return 2. -/
def RpcMatchingStatus.ComputeValue (alloc dealloc : ℕ) : ℕ :=
  if alloc ≠ 0 ∧ dealloc ≠ 0 then (if alloc = dealloc then 1 else 0) else 2

/-- The `RpcMatchingStatus(alloc, dealloc)` constructor. -/
def RpcMatchingStatus.ofIds (alloc dealloc : ℕ) : RpcMatchingStatus :=
  ⟨RpcMatchingStatus.ComputeValue alloc dealloc⟩

/-- `ComputeIndex` (deallocation_profiler.cc:139-141). -/
def ComputeIndex (status : CpuThreadMatchingStatus) (rpc_status : RpcMatchingStatus) : ℕ :=
  status.value * 3 + rpc_status.value

/-- One entry of `kAllCases`. -/
abbrev Case := CpuThreadMatchingStatus × RpcMatchingStatus

/-- `kAllCases` (deallocation_profiler.cc:143-158), in source order. -/
def kAllCases : List Case :=
  [ (⟨false, false⟩, RpcMatchingStatus.ofIds 0 0),
    (⟨false, true⟩, RpcMatchingStatus.ofIds 0 0),
    (⟨true, false⟩, RpcMatchingStatus.ofIds 0 0),
    (⟨true, true⟩, RpcMatchingStatus.ofIds 0 0),
    (⟨false, false⟩, RpcMatchingStatus.ofIds 1 2),
    (⟨false, true⟩, RpcMatchingStatus.ofIds 1 2),
    (⟨true, false⟩, RpcMatchingStatus.ofIds 1 2),
    (⟨true, true⟩, RpcMatchingStatus.ofIds 1 2),
    (⟨false, false⟩, RpcMatchingStatus.ofIds 1 1),
    (⟨false, true⟩, RpcMatchingStatus.ofIds 1 1),
    (⟨true, false⟩, RpcMatchingStatus.ofIds 1 1),
    (⟨true, true⟩, RpcMatchingStatus.ofIds 1 1) ]

/-- Index of the matching bucket a `kAllCases` entry denotes. -/
def caseIndex (c : Case) : ℕ := ComputeIndex c.1 c.2

/-- `DeallocationStackTraceTable::Key` (deallocation_profiler.cc:253-269). -/
structure Key where
  alloc : DeallocationSampleRecord
  dealloc : DeallocationSampleRecord
deriving DecidableEq

/-- `Key::operator==`: pairwise `DeallocationSampleRecord` equality. -/
def sameKey (k k' : Key) : Prop :=
  sameRecord k.alloc k'.alloc ∧ sameRecord k.dealloc k'.dealloc

instance (k k' : Key) : Decidable (sameKey k k') := by
  unfold sameKey; infer_instance

theorem sameKey_refl (k : Key) : sameKey k k :=
  ⟨sameRecord_refl _, sameRecord_refl _⟩

theorem sameKey_symm {k k' : Key} (h : sameKey k k') : sameKey k' k :=
  ⟨sameRecord_symm h.1, sameRecord_symm h.2⟩

theorem sameKey_trans {k k' k'' : Key} (h : sameKey k k') (h' : sameKey k' k'') :
    sameKey k k'' :=
  ⟨sameRecord_trans h.1 h'.1, sameRecord_trans h.2 h'.2⟩

/-- `DeallocationStackTraceTable::Value` (deallocation_profiler.cc:271-285).
The five `double[12]` arrays are modelled as total functions on `ℕ`; all
indices ever used are below 12.  The constructor zero-fills every array and
then fills `min_life_times_ns` with `std::numeric_limits<double>::max()`. -/
structure Value where
  counts : ℕ → ℚ
  mean_life_times_ns : ℕ → ℚ
  variance_life_times_ns : ℕ → ℚ
  min_life_times_ns : ℕ → ℚ
  max_life_times_ns : ℕ → ℚ

/-- The default-constructed `Value`. -/
def Value.init : Value :=
  { counts := fun _ => 0
    mean_life_times_ns := fun _ => 0
    variance_life_times_ns := fun _ => 0
    min_life_times_ns := fun _ => dblMax
    max_life_times_ns := fun _ => 0 }

/-- The slot mutation performed by `DeallocationStackTraceTable::AddTrace`
(deallocation_profiler.cc:442-454): Welford mean/variance update in the
source's formulation, then min, max and count. -/
def updateValue (index : ℕ) (life_time_ns : ℚ) (v : Value) : Value :=
  let old_mean_ns := v.mean_life_times_ns index
  let new_mean_ns := old_mean_ns + (life_time_ns - old_mean_ns) / (v.counts index + 1)
  { counts := Function.update v.counts index (v.counts index + 1)
    mean_life_times_ns := Function.update v.mean_life_times_ns index new_mean_ns
    variance_life_times_ns := Function.update v.variance_life_times_ns index
      (v.variance_life_times_ns index + (life_time_ns - new_mean_ns) * (new_mean_ns - old_mean_ns))
    min_life_times_ns := Function.update v.min_life_times_ns index
      (min (v.min_life_times_ns index) life_time_ns)
    max_life_times_ns := Function.update v.max_life_times_ns index
      (max (v.max_life_times_ns index) life_time_ns) }

/-- The aggregation table `table_` (an `absl::flat_hash_map`), modelled as
an association list probed with the C++ key equality `sameKey`.  Iteration
order of the hash map is unspecified in the source; the list order stands
in for it. -/
abbrev Table := List (Key × Value)

/-- Hash-map lookup with the C++ `Key` equality. -/
def tableFind (k : Key) : Table → Option Value
  | [] => none
  | (k', v) :: t => if sameKey k k' then some v else tableFind k t

/-- `table_[key]` followed by an in-place mutation `f` of the mapped
`Value`: update the existing entry (keeping the stored key, as
`flat_hash_map` does) or append a fresh default-constructed one. -/
def tableUpsert (k : Key) (f : Value → Value) : Table → Table
  | [] => [(k, f Value.init)]
  | (k', v) :: t => if sameKey k k' then (k', f v) :: t else (k', v) :: tableUpsert k f t

/-- The bucket index computed by `AddTrace` (deallocation_profiler.cc:426-433):
cpu/thread matching status crossed with the default ("unknown") rpc status
`RpcMatchingStatus(0, 0)`. -/
def traceIndex (alloc_trace dealloc_trace : DeallocationSampleRecord) : ℕ :=
  ComputeIndex
    ⟨decide (alloc_trace.cpu_id = dealloc_trace.cpu_id),
      decide (alloc_trace.thread_id = dealloc_trace.thread_id)⟩
    (RpcMatchingStatus.ofIds 0 0)

/-- `DeallocationStackTraceTable::AddTrace` (deallocation_profiler.cc:423-455). -/
def AddTrace (t : Table) (alloc_trace dealloc_trace : DeallocationSampleRecord) : Table :=
  tableUpsert (Key.mk alloc_trace dealloc_trace)
    (updateValue (traceIndex alloc_trace dealloc_trace)
      (dealloc_trace.creation_time - alloc_trace.creation_time)) t

/-- C `std::lround`: round to nearest integer, halves away from zero. -/
def lroundQ (q : ℚ) : ℤ :=
  if 0 ≤ q then ⌊q + 1 / 2⌋ else -⌊-q + 1 / 2⌋

/-- `uintptr_t bytes = std::lround(v.counts[index] * k.alloc.weight * allocated_size)`
(deallocation_profiler.cc:474-475); the conversion of the `long` result to
`uintptr_t` wraps modulo `2^64`. -/
def roundedBytes (x : ℚ) : ℕ := ((lroundQ x) % (2 ^ 64 : ℤ)).toNat

/-- `int64_t count = (bytes + allocated_size - 1) / allocated_size`
(deallocation_profiler.cc:476): unsigned ceiling division by the allocated
size.  (The `ℕ` subtraction truncates at 0 where the C++ unsigned
subtraction would wrap; the two agree whenever `allocated_size ≥ 1`, and
`allocated_size = 0` would divide by zero in the source.) -/
def emittedCount (counts weight : ℚ) (allocated_size : ℕ) : ℕ :=
  (roundedBytes (counts * weight * allocated_size) + allocated_size - 1) / allocated_size

/-- `internal::LifetimeToBucketedLifetimeNanoseconds`
(deallocation_profiler.cc:541-561), with the `cutoff_ns` loop unrolled; in
the last loop iteration `cutoff_ns = 1000000` and the guard
`lifetime_ns < 1000000` already holds, so the loop always returns `100000`
when none of the earlier cutoffs matched. -/
def LifetimeToBucketedLifetimeNanoseconds (lifetime_ns : ℚ) : ℕ :=
  if lifetime_ns < 1000000 then
    if lifetime_ns ≤ 1 then 1
    else if lifetime_ns < 10 then 1
    else if lifetime_ns < 100 then 10
    else if lifetime_ns < 1000 then 100
    else if lifetime_ns < 10000 then 1000
    else if lifetime_ns < 100000 then 10000
    else 100000
  else
    ⌊lifetime_ns / 1000000⌋₊ * 1000000

/-- `bucketize_ns(sqrt(q))` for `0 ≤ q`, computably: each comparison
`sqrt q < c` of the bucketizer is replaced by `q < c^2`, and the final
`static_cast<uintptr_t>(sqrt(q) / 1e6) * 1e6` by integer square root; the
theorem `bucketizeSqrt_eq_real` below proves this equal to the bucketizer
applied to the real square root. -/
def bucketizeSqrt (q : ℚ) : ℕ :=
  if q < 10 ^ 12 then
    if q ≤ 1 then 1
    else if q < 10 ^ 2 then 1
    else if q < 10 ^ 4 then 10
    else if q < 10 ^ 6 then 100
    else if q < 10 ^ 8 then 1000
    else if q < 10 ^ 10 then 10000
    else 100000
  else
    (Nat.sqrt ⌊q⌋₊ / 1000000) * 1000000

/-- `Profile::Sample`, restricted to the fields the profiler fills in
`Iterate` (deallocation_profiler.cc:487-516).  `stack` models the prefix
of length `depth` of the sample's stack array. -/
structure Sample where
  sum : ℤ
  requested_size : ℕ
  requested_alignment : ℕ
  allocated_size : ℕ
  profile_id : ℕ
  lifetime_ns : ℕ
  stddev_lifetime_ns : ℕ
  min_lifetime_ns : ℕ
  max_lifetime_ns : ℕ
  allocator_deallocator_cpu_matched : Bool
  allocator_deallocator_thread_matched : Bool
  count : ℤ
  depth : ℕ
  stack : List IP
deriving DecidableEq

/-- The signed emitted count for one populated slot. -/
def sampleCount (k : Key) (v : Value) (c : Case) : ℤ :=
  (emittedCount (v.counts (caseIndex c)) k.alloc.weight k.alloc.allocated_size : ℤ)

/-- The sample constructed by the initializer list at
deallocation_profiler.cc:487-500, before `count`, `depth` and `stack` are
assigned. -/
def baseSample (k : Key) (v : Value) (c : Case) (pair_id : ℕ) : Sample :=
  let index := caseIndex c
  let allocated_size := k.alloc.allocated_size
  { sum := sampleCount k v c * allocated_size
    requested_size := k.alloc.requested_size
    requested_alignment := k.alloc.requested_alignment
    allocated_size := allocated_size
    profile_id := pair_id
    lifetime_ns := LifetimeToBucketedLifetimeNanoseconds (v.mean_life_times_ns index)
    stddev_lifetime_ns := bucketizeSqrt (max 0 (v.variance_life_times_ns index / v.counts index))
    min_lifetime_ns := LifetimeToBucketedLifetimeNanoseconds (v.min_life_times_ns index)
    max_lifetime_ns := LifetimeToBucketedLifetimeNanoseconds (v.max_life_times_ns index)
    allocator_deallocator_cpu_matched := c.1.cpu_matched
    allocator_deallocator_thread_matched := c.1.thread_matched
    count := 0
    depth := 0
    stack := [] }

/-- The first emitted sample of a pair: allocation stack, positive-signed
count (deallocation_profiler.cc:502-506). -/
def sampleA (k : Key) (v : Value) (c : Case) (pair_id : ℕ) : Sample :=
  { baseSample k v c pair_id with
      count := sampleCount k v c
      depth := k.alloc.depth
      stack := k.alloc.stack }

/-- The second emitted sample of a pair: `count = -1 * count`, deallocation
stack (deallocation_profiler.cc:508-516). -/
def sampleD (k : Key) (v : Value) (c : Case) (pair_id : ℕ) : Sample :=
  { sampleA k v c pair_id with
      count := -1 * sampleCount k v c
      depth := k.dealloc.depth
      stack := k.dealloc.stack }

/-- The body of the `kAllCases` loop in `Iterate`
(deallocation_profiler.cc:468-519): skip empty slots, otherwise emit the
two samples and advance `pair_id`. -/
def caseStep (k : Key) (v : Value) (s : List Sample × ℕ) (c : Case) : List Sample × ℕ :=
  if v.counts (caseIndex c) = 0 then s
  else (s.1 ++ [sampleA k v c s.2, sampleD k v c s.2], s.2 + 1)

/-- The body of the outer table loop in `Iterate`. -/
def entryStep (s : List Sample × ℕ) (kv : Key × Value) : List Sample × ℕ :=
  kAllCases.foldl (caseStep kv.1 kv.2) s

/-- `DeallocationStackTraceTable::Iterate` (deallocation_profiler.cc:457-521),
as the list of samples passed to the visitor, in order; `pair_id` starts
at 1. -/
def Iterate (t : Table) : List Sample :=
  (t.foldl entryStep ([], 1)).1

/-- The populated matching buckets of a table, in iteration order. -/
def populatedSlots : Table → List (Key × Value × Case)
  | [] => []
  | (k, v) :: t =>
      ((kAllCases.filter fun c => decide (v.counts (caseIndex c) ≠ 0)).map
        fun c => (k, v, c)) ++ populatedSlots t

/-- The flat list of sample pairs for a run of populated slots tagged with
their `pair_id`s. -/
def pairsOf : List (ℕ × Key × Value × Case) → List Sample
  | [] => []
  | (pid, k, v, c) :: rest => sampleA k v c pid :: sampleD k v c pid :: pairsOf rest

/-- The fields of `tcmalloc_internal::StackTrace` consumed by
`DeallocationProfiler::ReportMalloc`. -/
structure StackTrace where
  sampled_alloc_handle : ℕ
  requested_size : ℕ
  requested_alignment : ℕ
  allocated_size : ℕ
  depth : ℕ
  stack : List IP
  allocation_time : ℚ
  weight : ℕ

/-- The in-flight record stored by `DeallocationProfiler::ReportMalloc`
(deallocation_profiler.cc:330-350) for a sampled allocation observed on
the given cpu/thread.  Note that `depth` is stored unclamped
(`allocation.depth = stack_trace.depth`) while the `memcpy` copies only
`min(depth, kMaxStackDepth)` instruction pointers. -/
def recordOfTrace (cpu tid : ℤ) (st : StackTrace) : DeallocationSampleRecord :=
  { allocated_size := st.allocated_size
    requested_size := st.requested_size
    requested_alignment := st.requested_alignment
    depth := st.depth
    stack := st.stack.take (min st.depth kMaxStackDepth)
    creation_time := st.allocation_time
    cpu_id := cpu
    thread_id := tid
    weight := (st.weight : ℚ) / ((st.requested_size : ℚ) + 1) }

/-- The in-flight allocation map `allocs_`, keyed by allocation handle. -/
abbrev AllocMap := List (ℕ × DeallocationSampleRecord)

/-- `allocs_.find(handle)`. -/
def lookupAlloc (h : ℕ) : AllocMap → Option DeallocationSampleRecord
  | [] => none
  | (h', r) :: t => if h = h' then some r else lookupAlloc h t

/-- `allocs_.erase(it)`: remove the (first) entry for the handle. -/
def eraseAlloc (h : ℕ) : AllocMap → AllocMap
  | [] => []
  | (h', r) :: t => if h = h' then t else (h', r) :: eraseAlloc h t

/-- `allocs_[handle] = record`: overwrite or insert. -/
def upsertAlloc (h : ℕ) (r : DeallocationSampleRecord) : AllocMap → AllocMap
  | [] => [(h, r)]
  | (h', r') :: t => if h = h' then (h, r) :: t else (h', r') :: upsertAlloc h r t

/-- The mutable state of one `DeallocationProfiler`: its in-flight map and
its aggregation table. -/
structure ProfilerState where
  allocs : AllocMap
  table : Table

/-- `DeallocationProfiler::ReportMalloc` (deallocation_profiler.cc:330-350).
The current cpu and thread ids are external inputs. -/
def ReportMalloc (cpu tid : ℤ) (st : StackTrace) (s : ProfilerState) : ProfilerState :=
  { s with allocs := upsertAlloc st.sampled_alloc_handle (recordOfTrace cpu tid st) s.allocs }

/-- `DeallocationProfiler::ReportFree` (deallocation_profiler.cc:352-374).
`now`, the current cpu/thread ids and the freshly captured deallocation
stack (already truncated to at most 64 frames by `absl::GetStackTrace`)
are external inputs.  An absent handle returns the state unchanged; a hit
removes the in-flight entry, builds the deallocation record — copying the
three size fields from the matched allocation record — and adds the pair
to the aggregation table. -/
def ReportFree (h : ℕ) (now : ℚ) (cpu tid : ℤ) (dstack : List IP)
    (s : ProfilerState) : ProfilerState :=
  match lookupAlloc h s.allocs with
  | none => s
  | some sample =>
      let deallocation : DeallocationSampleRecord :=
        { allocated_size := sample.allocated_size
          requested_alignment := sample.requested_alignment
          requested_size := sample.requested_size
          creation_time := now
          cpu_id := cpu
          thread_id := tid
          depth := (dstack.take kMaxStackDepth).length
          stack := dstack.take kMaxStackDepth
          weight := 0 }
      { allocs := eraseAlloc h s.allocs
        table := AddTrace s.table sample deallocation }

/-- Profiler states reachable from a fresh profiler through any sequence
of reported events. -/
inductive Reachable : ProfilerState → Prop
  | init : Reachable ⟨[], []⟩
  | malloc (s : ProfilerState) (cpu tid : ℤ) (st : StackTrace) :
      Reachable s → Reachable (ReportMalloc cpu tid st s)
  | free (s : ProfilerState) (h : ℕ) (now : ℚ) (cpu tid : ℤ) (dstack : List IP) :
      Reachable s → Reachable (ReportFree h now cpu tid dstack s)

/-- The alloc and dealloc records of a key agree on the three size fields. -/
def sizesAgree (k : Key) : Prop :=
  k.alloc.requested_size = k.dealloc.requested_size ∧
    k.alloc.requested_alignment = k.dealloc.requested_alignment ∧
    k.alloc.allocated_size = k.dealloc.allocated_size

/-- Formalisation of the spec sentence for claim C3, for comparison with
the source: `count ← round(slot.count * alloc.weight * allocated_size /
allocated_size)`. -/
def specRoundCount (counts weight : ℚ) (allocated_size : ℕ) : ℤ :=
  lroundQ (counts * weight * allocated_size / allocated_size)

/-- Formalisation of the spec sentence for claim C4, for comparison with
the source: the smallest power-of-ten cutoff in
`{10, 100, 1000, 10000, 100000, 1000000}` such that `x < cutoff`. -/
def claimCutoffSmallest (x : ℚ) : ℕ :=
  let cutoffs : List ℕ := [10, 100, 1000, 10000, 100000, 1000000]
  (cutoffs.find? fun c : ℕ => decide (x < (c : ℚ))).getD 0

/-- Formalisation of the claim C4 sentence as frozen ("the largest
power-of-ten cutoff in `{10, ..., 1000000}` such that `lifetime_ns <
cutoff`"), for comparison with the source. -/
def claimCutoffLargest (x : ℚ) : ℕ :=
  let cutoffs : List ℕ := [1000000, 100000, 10000, 1000, 100, 10]
  (cutoffs.find? fun c : ℕ => decide (x < (c : ℚ))).getD 0

/-! ### Association-list lemmas for the aggregation table -/

theorem tableFind_congr {k k' : Key} (h : sameKey k k') (t : Table) :
    tableFind k t = tableFind k' t := by
  induction t with
  | nil => rfl
  | cons kv t ih =>
      obtain ⟨k₀, v₀⟩ := kv
      by_cases h₀ : sameKey k' k₀
      · rw [tableFind, if_pos (sameKey_trans h h₀), tableFind, if_pos h₀]
      · rw [tableFind, if_neg fun hc => h₀ (sameKey_trans (sameKey_symm h) hc),
          tableFind, if_neg h₀, ih]

theorem tableFind_upsert (k k' : Key) (f : Value → Value) (t : Table) :
    tableFind k (tableUpsert k' f t) =
      if sameKey k k' then some (f ((tableFind k' t).getD Value.init))
      else tableFind k t := by
  induction t with
  | nil =>
      by_cases h : sameKey k k'
      · simp [tableUpsert, tableFind, h]
      · simp [tableUpsert, tableFind, h]
  | cons kv t ih =>
      obtain ⟨k₀, v₀⟩ := kv
      by_cases h₀ : sameKey k' k₀
      · rw [tableUpsert, if_pos h₀]
        by_cases h : sameKey k k'
        · rw [tableFind, if_pos (sameKey_trans h h₀), if_pos h, tableFind, if_pos h₀]
          simp
        · have hk₀ : ¬ sameKey k k₀ := fun hc => h (sameKey_trans hc (sameKey_symm h₀))
          rw [tableFind, if_neg hk₀, if_neg h, tableFind, if_neg hk₀]
      · rw [tableUpsert, if_neg h₀]
        by_cases hk₀ : sameKey k k₀
        · have h : ¬ sameKey k k' := fun hc => h₀ (sameKey_trans (sameKey_symm hc) hk₀)
          rw [tableFind, if_pos hk₀, if_neg h, tableFind, if_pos hk₀]
        · rw [tableFind, if_neg hk₀, ih,
            show tableFind k' ((k₀, v₀) :: t) = tableFind k' t from by
              rw [tableFind, if_neg h₀],
            show tableFind k ((k₀, v₀) :: t) = tableFind k t from by
              rw [tableFind, if_neg hk₀]]

theorem mem_tableUpsert {kv : Key × Value} {k : Key} {f : Value → Value} {t : Table}
    (h : kv ∈ tableUpsert k f t) : kv.1 = k ∨ ∃ v, (kv.1, v) ∈ t := by
  induction t with
  | nil =>
      rw [tableUpsert, List.mem_singleton] at h
      exact Or.inl (by rw [h])
  | cons kv₀ t ih =>
      obtain ⟨k₀, v₀⟩ := kv₀
      by_cases h₀ : sameKey k k₀
      · rw [tableUpsert, if_pos h₀, List.mem_cons] at h
        rcases h with h | h
        · exact Or.inr ⟨v₀, by rw [h]; exact List.mem_cons_self _ _⟩
        · exact Or.inr ⟨kv.2, List.mem_cons_of_mem _ h⟩
      · rw [tableUpsert, if_neg h₀, List.mem_cons] at h
        rcases h with h | h
        · exact Or.inr ⟨v₀, by rw [h]; exact List.mem_cons_self _ _⟩
        · rcases ih h with h' | ⟨v, hv⟩
          · exact Or.inl h'
          · exact Or.inr ⟨v, List.mem_cons_of_mem _ hv⟩

/-! ### Characterisation of `Iterate` as a flat list of numbered pairs -/

theorem pairsOf_append (l₁ l₂ : List (ℕ × Key × Value × Case)) :
    pairsOf (l₁ ++ l₂) = pairsOf l₁ ++ pairsOf l₂ := by
  induction l₁ with
  | nil => rfl
  | cons p l₁ ih =>
      obtain ⟨pid, k, v, c⟩ := p
      simp [pairsOf, ih]

theorem caseFold (k : Key) (v : Value) (cs : List Case) (acc : List Sample) (pid : ℕ) :
    cs.foldl (caseStep k v) (acc, pid) =
      (acc ++ pairsOf
          (((cs.filter fun c => decide (v.counts (caseIndex c) ≠ 0)).map
            fun c => (k, v, c)).enumFrom pid),
        pid + (cs.filter fun c => decide (v.counts (caseIndex c) ≠ 0)).length) := by
  induction cs generalizing acc pid with
  | nil => simp [pairsOf]
  | cons c cs ih =>
      by_cases hz : v.counts (caseIndex c) = 0
      · rw [List.foldl_cons, show caseStep k v (acc, pid) c = (acc, pid) from by
          rw [caseStep, if_pos hz], ih]
        simp [hz]
      · have hfc : (c :: cs).filter (fun c => decide (v.counts (caseIndex c) ≠ 0)) =
            c :: cs.filter (fun c => decide (v.counts (caseIndex c) ≠ 0)) := by
          simp [List.filter_cons, hz]
        rw [List.foldl_cons, show caseStep k v (acc, pid) c =
            (acc ++ [sampleA k v c pid, sampleD k v c pid], pid + 1) from by
          rw [caseStep, if_neg hz], ih, hfc, List.map_cons, List.enumFrom_cons,
          List.length_cons]
        simp only [pairsOf, Prod.mk.injEq]
        refine ⟨by simp, by omega⟩

theorem tableFold (t : Table) (acc : List Sample) (pid : ℕ) :
    t.foldl entryStep (acc, pid) =
      (acc ++ pairsOf ((populatedSlots t).enumFrom pid),
        pid + (populatedSlots t).length) := by
  induction t generalizing acc pid with
  | nil => simp [populatedSlots, pairsOf]
  | cons kv t ih =>
      obtain ⟨k, v⟩ := kv
      rw [List.foldl_cons, show entryStep (acc, pid) (k, v) =
          kAllCases.foldl (caseStep k v) (acc, pid) from rfl, caseFold, ih]
      rw [populatedSlots, List.enumFrom_append, pairsOf_append, List.append_assoc]
      simp only [List.length_map, List.length_append, Prod.mk.injEq]
      refine ⟨by simp, by omega⟩

theorem Iterate_eq_pairs (t : Table) :
    Iterate t = pairsOf ((populatedSlots t).enumFrom 1) := by
  rw [Iterate, tableFold]
  simp

/-! ### Welford-slot lemmas -/

theorem updateValue_fresh (i : ℕ) (L : ℚ) (hL0 : 0 ≤ L) (hLm : L ≤ dblMax) :
    (updateValue i L Value.init).counts i = 1 ∧
      (updateValue i L Value.init).mean_life_times_ns i = L ∧
      (updateValue i L Value.init).variance_life_times_ns i = 0 ∧
      (updateValue i L Value.init).min_life_times_ns i = L ∧
      (updateValue i L Value.init).max_life_times_ns i = L := by
  simp [updateValue, Value.init, min_eq_right hLm, max_eq_right hL0]

theorem updateValue_same (i : ℕ) (L m : ℚ) (v : Value)
    (hc : v.counts i = m) (hm : v.mean_life_times_ns i = L)
    (hv : v.variance_life_times_ns i = 0) (hmin : v.min_life_times_ns i = L)
    (hmax : v.max_life_times_ns i = L) :
    (updateValue i L v).counts i = m + 1 ∧
      (updateValue i L v).mean_life_times_ns i = L ∧
      (updateValue i L v).variance_life_times_ns i = 0 ∧
      (updateValue i L v).min_life_times_ns i = L ∧
      (updateValue i L v).max_life_times_ns i = L := by
  simp [updateValue, hc, hm, hv, hmin, hmax]

/-! ### Rounding lemmas for the emitted count -/

theorem roundedBytes_eq (x : ℚ) (h0 : 0 ≤ x) (hub : x ≤ 2 ^ 63 - 1) :
    (roundedBytes x : ℤ) = ⌊x + 1 / 2⌋ := by
  rw [roundedBytes, lroundQ, if_pos h0]
  have hge : (0 : ℤ) ≤ ⌊x + 1 / 2⌋ := Int.floor_nonneg.mpr (by linarith)
  have hlt2 : ⌊x + 1 / 2⌋ < 2 ^ 64 := by
    have hfl := Int.floor_le (x + 1 / 2)
    have hx : ((⌊x + 1 / 2⌋ : ℤ) : ℚ) < 2 ^ 64 := by
      calc ((⌊x + 1 / 2⌋ : ℤ) : ℚ) ≤ x + 1 / 2 := hfl
      _ ≤ 2 ^ 63 - 1 + 1 / 2 := by linarith
      _ < 2 ^ 64 := by norm_num
    exact_mod_cast hx
  rw [Int.emod_eq_of_lt hge hlt2, Int.toNat_of_nonneg hge]

theorem emittedCount_pos (counts weight : ℚ) (as : ℕ) (has : 1 ≤ as)
    (h2 : 1 / 2 ≤ counts * weight * as) (h3 : counts * weight * as ≤ 2 ^ 63 - 1) :
    1 ≤ emittedCount counts weight as := by
  rw [emittedCount]
  have hb : 1 ≤ roundedBytes (counts * weight * (as : ℚ)) := by
    have h0 : (0 : ℚ) ≤ counts * weight * as := le_trans (by norm_num) h2
    have heq := roundedBytes_eq _ h0 h3
    have h1 : (1 : ℤ) ≤ ⌊counts * weight * (as : ℚ) + 1 / 2⌋ := by
      apply Int.le_floor.mpr
      push_cast
      linarith
    omega
  rw [Nat.one_le_div_iff (by omega)]
  omega

/-! ### Bucketizer lemmas -/

theorem floor_mul_ge (y : ℚ) (hy : 1000000 ≤ y) :
    1000000 ≤ ⌊y / 1000000⌋₊ * 1000000 := by
  have h1 : (1 : ℕ) ≤ ⌊y / 1000000⌋₊ := by
    apply Nat.le_floor
    rw [le_div_iff₀ (by norm_num : (0 : ℚ) < 1000000)]
    push_cast
    linarith
  calc (1000000 : ℕ) = 1 * 1000000 := by norm_num
  _ ≤ ⌊y / 1000000⌋₊ * 1000000 := Nat.mul_le_mul_right _ h1

theorem bucket_le (x : ℚ) (hx : 10 ≤ x) :
    (LifetimeToBucketedLifetimeNanoseconds x : ℚ) ≤ x := by
  rw [LifetimeToBucketedLifetimeNanoseconds]
  split_ifs <;> try (push_cast; linarith)
  · push_cast
    have h0 : (0 : ℚ) ≤ x / 1000000 := by positivity
    have hfl := Nat.floor_le h0
    have hm := mul_le_mul_of_nonneg_right hfl (by norm_num : (0 : ℚ) ≤ 1000000)
    rw [div_mul_cancel₀] at hm
    · exact hm
    · norm_num

theorem bucket_mem (x : ℚ) :
    LifetimeToBucketedLifetimeNanoseconds x ∈ ([1, 10, 100, 1000, 10000, 100000] : List ℕ) ∨
      1000000 ∣ LifetimeToBucketedLifetimeNanoseconds x := by
  rw [LifetimeToBucketedLifetimeNanoseconds]
  split_ifs <;> simp

theorem bucket_mono {x y : ℚ} (h : x ≤ y) :
    LifetimeToBucketedLifetimeNanoseconds x ≤ LifetimeToBucketedLifetimeNanoseconds y := by
  rw [LifetimeToBucketedLifetimeNanoseconds, LifetimeToBucketedLifetimeNanoseconds]
  split_ifs <;> try linarith
  all_goals try norm_num
  all_goals first
    | (have hfg := floor_mul_ge y (by linarith); omega)
    | gcongr

theorem bucket_eq_smallest (x : ℚ) (h1 : 1 < x) (h2 : x < 1000000) :
    LifetimeToBucketedLifetimeNanoseconds x = claimCutoffSmallest x / 10 := by
  have hx1 : ¬ x ≤ 1 := not_le.mpr h1
  rw [LifetimeToBucketedLifetimeNanoseconds, if_pos h2, if_neg hx1]
  by_cases h10 : x < 10
  · rw [if_pos h10, show claimCutoffSmallest x = 10 from by
      simp [claimCutoffSmallest, List.find?, Nat.cast_ofNat, h10]]
  rw [if_neg h10]
  by_cases h100 : x < 100
  · rw [if_pos h100, show claimCutoffSmallest x = 100 from by
      simp [claimCutoffSmallest, List.find?, Nat.cast_ofNat, h10, h100]]
  rw [if_neg h100]
  by_cases h1000 : x < 1000
  · rw [if_pos h1000, show claimCutoffSmallest x = 1000 from by
      simp [claimCutoffSmallest, List.find?, Nat.cast_ofNat, h10, h100, h1000]]
  rw [if_neg h1000]
  by_cases h10000 : x < 10000
  · rw [if_pos h10000, show claimCutoffSmallest x = 10000 from by
      simp [claimCutoffSmallest, List.find?, Nat.cast_ofNat, h10, h100, h1000, h10000]]
  rw [if_neg h10000]
  by_cases h100000 : x < 100000
  · rw [if_pos h100000, show claimCutoffSmallest x = 100000 from by
      simp [claimCutoffSmallest, List.find?, Nat.cast_ofNat, h10, h100, h1000, h10000, h100000]]
  rw [if_neg h100000, show claimCutoffSmallest x = 1000000 from by
    simp [claimCutoffSmallest, List.find?, Nat.cast_ofNat, h10, h100, h1000, h10000, h100000, h2]]

/-! ### Justification of `bucketizeSqrt`
The source computes `bucketize_ns(sqrt(max(0, variance/count)))`; the
embedding keeps the sample type computable through `bucketizeSqrt`, and the
lemmas below prove that this equals the bucketizer — mirrored verbatim on
`ℝ` — applied to the real square root. -/

/-- Noncomputable mirror of `LifetimeToBucketedLifetimeNanoseconds` on `ℝ`,
used only to justify `bucketizeSqrt`. -/
noncomputable def LifetimeToBucketedLifetimeNanosecondsReal (lifetime_ns : ℝ) : ℕ :=
  if lifetime_ns < 1000000 then
    if lifetime_ns ≤ 1 then 1
    else if lifetime_ns < 10 then 1
    else if lifetime_ns < 100 then 10
    else if lifetime_ns < 1000 then 100
    else if lifetime_ns < 10000 then 1000
    else if lifetime_ns < 100000 then 10000
    else 100000
  else
    ⌊lifetime_ns / 1000000⌋₊ * 1000000

theorem natFloor_ratCast (y : ℚ) (hy : 0 ≤ y) : ⌊(y : ℝ)⌋₊ = ⌊y⌋₊ := by
  have h1 : (⌊(y : ℝ)⌋₊ : ℤ) = ⌊(y : ℝ)⌋ :=
    Int.natCast_floor_eq_floor (by exact_mod_cast hy)
  have h2 : (⌊y⌋₊ : ℤ) = ⌊y⌋ := Int.natCast_floor_eq_floor hy
  have h3 : ⌊(y : ℝ)⌋ = ⌊y⌋ := Rat.floor_cast y
  omega

/-- On nonnegative rational inputs the real mirror agrees with the
bucketizer of the source. -/
theorem bucketizeReal_ratCast (x : ℚ) (hx : 0 ≤ x) :
    LifetimeToBucketedLifetimeNanosecondsReal (x : ℝ) =
      LifetimeToBucketedLifetimeNanoseconds x := by
  rw [LifetimeToBucketedLifetimeNanosecondsReal, LifetimeToBucketedLifetimeNanoseconds]
  have e1 : ((x : ℝ) < 1000000) = (x < 1000000) := propext (by exact_mod_cast Iff.rfl)
  have e2 : ((x : ℝ) ≤ 1) = (x ≤ 1) := propext (by exact_mod_cast Iff.rfl)
  have e3 : ((x : ℝ) < 10) = (x < 10) := propext (by exact_mod_cast Iff.rfl)
  have e4 : ((x : ℝ) < 100) = (x < 100) := propext (by exact_mod_cast Iff.rfl)
  have e5 : ((x : ℝ) < 1000) = (x < 1000) := propext (by exact_mod_cast Iff.rfl)
  have e6 : ((x : ℝ) < 10000) = (x < 10000) := propext (by exact_mod_cast Iff.rfl)
  have e7 : ((x : ℝ) < 100000) = (x < 100000) := propext (by exact_mod_cast Iff.rfl)
  have e8 : ⌊(x : ℝ) / 1000000⌋₊ = ⌊x / 1000000⌋₊ := by
    rw [show ((x : ℝ) / 1000000) = ((x / 1000000 : ℚ) : ℝ) from by push_cast; ring]
    exact natFloor_ratCast _ (by positivity)
  simp only [e1, e2, e3, e4, e5, e6, e7, e8]

theorem natFloor_sqrt_ratCast (q : ℚ) (hq : 0 ≤ q) :
    ⌊Real.sqrt (q : ℝ)⌋₊ = Nat.sqrt ⌊q⌋₊ := by
  have h1 : ((Nat.sqrt ⌊q⌋₊ : ℕ) : ℝ) ≤ Real.sqrt (q : ℝ) := by
    have hle : ((⌊q⌋₊ : ℕ) : ℝ) ≤ (q : ℝ) := by exact_mod_cast Nat.floor_le hq
    calc ((Nat.sqrt ⌊q⌋₊ : ℕ) : ℝ) ≤ Real.sqrt ((⌊q⌋₊ : ℕ) : ℝ) :=
      Real.nat_sqrt_le_real_sqrt
    _ ≤ Real.sqrt (q : ℝ) := Real.sqrt_le_sqrt hle
  have h2 : Real.sqrt (q : ℝ) < (Nat.sqrt ⌊q⌋₊ : ℕ) + 1 := by
    rw [Real.sqrt_lt' (by positivity)]
    have hq1 : (q : ℝ) < ((⌊q⌋₊ : ℕ) : ℝ) + 1 := by
      exact_mod_cast Nat.lt_floor_add_one q
    have hfl : ((⌊q⌋₊ : ℕ) + 1 : ℕ) ≤ (Nat.sqrt ⌊q⌋₊ + 1) ^ 2 :=
      Nat.succ_le_of_lt (Nat.lt_succ_sqrt' _)
    calc (q : ℝ) < ((⌊q⌋₊ : ℕ) : ℝ) + 1 := hq1
    _ ≤ ((Nat.sqrt ⌊q⌋₊ : ℕ) + 1 : ℝ) ^ 2 := by exact_mod_cast hfl
  rw [Nat.floor_eq_iff (Real.sqrt_nonneg _)]
  exact ⟨h1, h2⟩

/-- `bucketizeSqrt` computes exactly the bucketizer applied to the real
square root: each comparison `sqrt q < c` becomes `q < c^2` and the final
truncating division acts on the integer square root. -/
theorem bucketizeSqrt_eq_real (q : ℚ) (hq : 0 ≤ q) :
    bucketizeSqrt q = LifetimeToBucketedLifetimeNanosecondsReal (Real.sqrt (q : ℝ)) := by
  rw [bucketizeSqrt, LifetimeToBucketedLifetimeNanosecondsReal]
  have e1 : (Real.sqrt (q : ℝ) < 1000000) = (q < 10 ^ 12) := propext (by
    rw [Real.sqrt_lt' (by norm_num : (0 : ℝ) < 1000000)]
    constructor <;> intro h
    · exact_mod_cast (by norm_num at h ⊢; exact h : (q : ℝ) < 10 ^ 12)
    · norm_num
      exact_mod_cast h)
  have e2 : (Real.sqrt (q : ℝ) ≤ 1) = (q ≤ 1) := propext (by
    rw [Real.sqrt_le_one]
    exact_mod_cast Iff.rfl)
  have e3 : (Real.sqrt (q : ℝ) < 10) = (q < 10 ^ 2) := propext (by
    rw [Real.sqrt_lt' (by norm_num : (0 : ℝ) < 10)]
    exact_mod_cast Iff.rfl)
  have e4 : (Real.sqrt (q : ℝ) < 100) = (q < 10 ^ 4) := propext (by
    rw [Real.sqrt_lt' (by norm_num : (0 : ℝ) < 100)]
    constructor <;> intro h
    · exact_mod_cast (by norm_num at h ⊢; exact h : (q : ℝ) < 10 ^ 4)
    · norm_num
      exact_mod_cast h)
  have e5 : (Real.sqrt (q : ℝ) < 1000) = (q < 10 ^ 6) := propext (by
    rw [Real.sqrt_lt' (by norm_num : (0 : ℝ) < 1000)]
    constructor <;> intro h
    · exact_mod_cast (by norm_num at h ⊢; exact h : (q : ℝ) < 10 ^ 6)
    · norm_num
      exact_mod_cast h)
  have e6 : (Real.sqrt (q : ℝ) < 10000) = (q < 10 ^ 8) := propext (by
    rw [Real.sqrt_lt' (by norm_num : (0 : ℝ) < 10000)]
    constructor <;> intro h
    · exact_mod_cast (by norm_num at h ⊢; exact h : (q : ℝ) < 10 ^ 8)
    · norm_num
      exact_mod_cast h)
  have e7 : (Real.sqrt (q : ℝ) < 100000) = (q < 10 ^ 10) := propext (by
    rw [Real.sqrt_lt' (by norm_num : (0 : ℝ) < 100000)]
    constructor <;> intro h
    · exact_mod_cast (by norm_num at h ⊢; exact h : (q : ℝ) < 10 ^ 10)
    · norm_num
      exact_mod_cast h)
  have e8 : ⌊Real.sqrt (q : ℝ) / 1000000⌋₊ = Nat.sqrt ⌊q⌋₊ / 1000000 := by
    rw [show ((1000000 : ℝ)) = ((1000000 : ℕ) : ℝ) from by norm_num,
      Nat.floor_div_nat (Real.sqrt (q : ℝ)) 1000000, natFloor_sqrt_ratCast q hq]
  simp only [e1, e2, e3, e4, e5, e6, e7, e8]

/-! ### Folding identical lifetimes through `AddTrace` -/

theorem addTrace_find {a' d' : DeallocationSampleRecord} {key : Key}
    (hk : sameKey (Key.mk a' d') key) (t : Table) :
    tableFind key (AddTrace t a' d') =
      some (updateValue (traceIndex a' d') (d'.creation_time - a'.creation_time)
        ((tableFind key t).getD Value.init)) := by
  rw [AddTrace, tableFind_upsert, if_pos (sameKey_symm hk),
    tableFind_congr (sameKey_symm hk) t]

theorem c8_fold (a d : DeallocationSampleRecord) (L : ℚ)
    (ps : List (DeallocationSampleRecord × DeallocationSampleRecord))
    (hkey : ∀ p ∈ ps, sameKey (Key.mk p.1 p.2) (Key.mk a d))
    (hidx : ∀ p ∈ ps, traceIndex p.1 p.2 = traceIndex a d)
    (hlife : ∀ p ∈ ps, p.2.creation_time - p.1.creation_time = L) :
    ∀ (t : Table) (v : Value) (m : ℚ),
      tableFind (Key.mk a d) t = some v →
      v.counts (traceIndex a d) = m →
      v.mean_life_times_ns (traceIndex a d) = L →
      v.variance_life_times_ns (traceIndex a d) = 0 →
      v.min_life_times_ns (traceIndex a d) = L →
      v.max_life_times_ns (traceIndex a d) = L →
      ∃ v', tableFind (Key.mk a d) (ps.foldl (fun t p => AddTrace t p.1 p.2) t) = some v' ∧
        v'.counts (traceIndex a d) = m + ps.length ∧
        v'.mean_life_times_ns (traceIndex a d) = L ∧
        v'.variance_life_times_ns (traceIndex a d) = 0 ∧
        v'.min_life_times_ns (traceIndex a d) = L ∧
        v'.max_life_times_ns (traceIndex a d) = L := by
  induction ps with
  | nil =>
      intro t v m hfind hc hm hv hmin hmax
      exact ⟨v, hfind, by simp [hc], hm, hv, hmin, hmax⟩
  | cons p rest ih =>
      intro t v m hfind hc hm hv hmin hmax
      have hkp := hkey p (List.mem_cons_self _ _)
      have hip := hidx p (List.mem_cons_self _ _)
      have hlp := hlife p (List.mem_cons_self _ _)
      have hstep := addTrace_find hkp t
      rw [hfind] at hstep
      have hupd := updateValue_same (traceIndex a d) L m v hc hm hv hmin hmax
      rw [List.foldl_cons]
      have hrest := ih (fun q hq => hkey q (List.mem_cons_of_mem _ hq))
        (fun q hq => hidx q (List.mem_cons_of_mem _ hq))
        (fun q hq => hlife q (List.mem_cons_of_mem _ hq))
        (AddTrace t p.1 p.2) (updateValue (traceIndex a d) L v) (m + 1)
        (by rw [hstep, hip, hlp]; rfl)
        hupd.1 hupd.2.1 hupd.2.2.1 hupd.2.2.2.1 hupd.2.2.2.2
      obtain ⟨v', hfind', hc', hm', hv', hmin', hmax'⟩ := hrest
      refine ⟨v', hfind', ?_, hm', hv', hmin', hmax'⟩
      rw [hc']
      simp only [List.length_cons]
      push_cast
      ring

theorem computeValue_le_two (a d : ℕ) : RpcMatchingStatus.ComputeValue a d ≤ 2 := by
  rw [RpcMatchingStatus.ComputeValue]
  split_ifs <;> norm_num

/-! ### Claim theorems -/

/-- C4 (amended): the bucketizer maps `lifetime_ns ≤ 1` to 1; maps
`1 < lifetime_ns < 10^6` to `cutoff/10` where `cutoff` is the **smallest**
(not largest) power-of-ten cutoff in `{10, ..., 1000000}` with
`lifetime_ns < cutoff`; and maps any other (`≥ 10^6`) lifetime to
`floor(lifetime_ns / 10^6) * 10^6`. -/
theorem C4_bucketizer_cases (x : ℚ) :
    (x ≤ 1 → LifetimeToBucketedLifetimeNanoseconds x = 1) ∧
      (1 < x → x < 1000000 →
        LifetimeToBucketedLifetimeNanoseconds x = claimCutoffSmallest x / 10) ∧
      (1000000 ≤ x →
        LifetimeToBucketedLifetimeNanoseconds x = ⌊x / 1000000⌋₊ * 1000000) := by
  refine ⟨fun h1 => ?_, fun h1 h2 => bucket_eq_smallest x h1 h2, fun hge => ?_⟩
  · rw [LifetimeToBucketedLifetimeNanoseconds, if_pos (by linarith), if_pos h1]
  · rw [LifetimeToBucketedLifetimeNanoseconds, if_neg (not_lt.mpr hge)]

/-- C4 counterexample: at lifetime 5 ns the code returns 1, but the claim's
"largest power-of-ten cutoff with `5 < cutoff`" is 1000000, which would
give `1000000 / 10 = 100000 ≠ 1`. -/
theorem C4_counterexample :
    LifetimeToBucketedLifetimeNanoseconds 5 = 1 ∧
      claimCutoffLargest 5 / 10 = 100000 ∧ (1 : ℕ) ≠ 100000 := by
  refine ⟨?_, ?_, by norm_num⟩
  · rw [LifetimeToBucketedLifetimeNanoseconds]
    norm_num
  · norm_num [claimCutoffLargest, List.find?]

/-- Witness for C4 at concrete lifetimes 1/2, 500 and 2500000 ns. -/
theorem C4_witness :
    LifetimeToBucketedLifetimeNanoseconds (1 / 2) = 1 ∧
      LifetimeToBucketedLifetimeNanoseconds 500 = claimCutoffSmallest 500 / 10 ∧
      LifetimeToBucketedLifetimeNanoseconds 2500000 =
        ⌊(2500000 : ℚ) / 1000000⌋₊ * 1000000 :=
  ⟨(C4_bucketizer_cases (1 / 2)).1 (by norm_num),
    (C4_bucketizer_cases 500).2.1 (by norm_num) (by norm_num),
    (C4_bucketizer_cases 2500000).2.2 (by norm_num)⟩

/-- C5: bucketizer laws — `bucket(x) ≤ x` for `x ≥ 10`; `bucket(x)` is one
of `{1, 10, 100, 1000, 10000, 100000}` or a multiple of one million; and
the bucketizer is monotone non-decreasing. -/
theorem C5_bucketizer_laws (x y : ℚ) :
    (10 ≤ x → (LifetimeToBucketedLifetimeNanoseconds x : ℚ) ≤ x) ∧
      (LifetimeToBucketedLifetimeNanoseconds x ∈
          ([1, 10, 100, 1000, 10000, 100000] : List ℕ) ∨
        1000000 ∣ LifetimeToBucketedLifetimeNanoseconds x) ∧
      (x ≤ y →
        LifetimeToBucketedLifetimeNanoseconds x ≤ LifetimeToBucketedLifetimeNanoseconds y) :=
  ⟨fun hx => bucket_le x hx, bucket_mem x, fun h => bucket_mono h⟩

/-- Witness for C5 at `x = 4000`, `y = 2500000`. -/
theorem C5_witness :
    (LifetimeToBucketedLifetimeNanoseconds 4000 : ℚ) ≤ 4000 ∧
      LifetimeToBucketedLifetimeNanoseconds 4000 ≤
        LifetimeToBucketedLifetimeNanoseconds 2500000 :=
  ⟨(C5_bucketizer_laws 4000 2500000).1 (by norm_num),
    (C5_bucketizer_laws 4000 2500000).2.2 (by norm_num)⟩

/-- C6 (amended): `ComputeValue` maps the unknown case (an rpc id of 0 on
either side) to **2**, known-and-different to **0** and known-and-equal to
**1** (the claim had these roles permuted); the bucket index is
`(cpu_matched << 1 | thread_matched) * 3 + rpc_status`, always below 12;
and `AddTrace` always uses the default `RpcMatchingStatus(0, 0)`, i.e. the
unknown status with encoded value 2. -/
theorem C6_matching_encoding :
    (∀ a d : ℕ, a = 0 ∨ d = 0 → RpcMatchingStatus.ComputeValue a d = 2) ∧
      (∀ a d : ℕ, a ≠ 0 → d ≠ 0 → a ≠ d → RpcMatchingStatus.ComputeValue a d = 0) ∧
      (∀ a d : ℕ, a ≠ 0 → d ≠ 0 → a = d → RpcMatchingStatus.ComputeValue a d = 1) ∧
      (∀ (cm tm : Bool) (a d : ℕ),
        ComputeIndex ⟨cm, tm⟩ (RpcMatchingStatus.ofIds a d) =
            (2 * (if cm then 1 else 0) + (if tm then 1 else 0)) * 3 +
              RpcMatchingStatus.ComputeValue a d ∧
          ComputeIndex ⟨cm, tm⟩ (RpcMatchingStatus.ofIds a d) < 12) ∧
      (∀ (t : Table) (a d : DeallocationSampleRecord),
        RpcMatchingStatus.ofIds 0 0 = ⟨2⟩ ∧
          AddTrace t a d = tableUpsert (Key.mk a d)
            (updateValue (traceIndex a d) (d.creation_time - a.creation_time)) t) := by
  refine ⟨?_, ?_, ?_, ?_, fun t a d => ⟨rfl, rfl⟩⟩
  · intro a d h
    rw [RpcMatchingStatus.ComputeValue, if_neg]
    rcases h with h | h <;> simp [h]
  · intro a d ha hd hne
    rw [RpcMatchingStatus.ComputeValue, if_pos ⟨ha, hd⟩, if_neg hne]
  · intro a d ha hd he
    rw [RpcMatchingStatus.ComputeValue, if_pos ⟨ha, hd⟩, if_pos he]
  · intro cm tm a d
    have hle := computeValue_le_two a d
    constructor
    · cases cm <;> cases tm <;>
        simp [ComputeIndex, CpuThreadMatchingStatus.value, RpcMatchingStatus.ofIds]
    · cases cm <;> cases tm <;>
        simp [ComputeIndex, CpuThreadMatchingStatus.value, RpcMatchingStatus.ofIds] <;>
        omega

/-- C6 counterexample: the claim's encoding (unknown ↦ 0, different ↦ 1,
equal ↦ 2) is refuted by the code: `ComputeValue(0, 0) = 2` (not 0),
`ComputeValue(1, 2) = 0` (not 1) and `ComputeValue(1, 1) = 1` (not 2). -/
theorem C6_counterexample :
    RpcMatchingStatus.ComputeValue 0 0 = 2 ∧ (2 : ℕ) ≠ 0 ∧
      RpcMatchingStatus.ComputeValue 1 2 = 0 ∧ (0 : ℕ) ≠ 1 ∧
      RpcMatchingStatus.ComputeValue 1 1 = 1 ∧ (1 : ℕ) ≠ 2 :=
  ⟨rfl, by norm_num, rfl, by norm_num, rfl, by norm_num⟩

/-- Witness for C6 at concrete rpc ids and matching flags. -/
theorem C6_witness :
    RpcMatchingStatus.ComputeValue 0 7 = 2 ∧
      RpcMatchingStatus.ComputeValue 3 4 = 0 ∧
      RpcMatchingStatus.ComputeValue 5 5 = 1 ∧
      ComputeIndex ⟨true, true⟩ (RpcMatchingStatus.ofIds 0 0) < 12 :=
  ⟨C6_matching_encoding.1 0 7 (Or.inl rfl),
    C6_matching_encoding.2.1 3 4 (by norm_num) (by norm_num) (by norm_num),
    C6_matching_encoding.2.2.1 5 5 (by norm_num) (by norm_num) rfl,
    (C6_matching_encoding.2.2.2.1 true true 0 0).2⟩

/-- C9: `ReportFree(h)` on a profiler whose in-flight map has no entry for
handle `h` returns the state unchanged — neither the in-flight map nor the
aggregation table is modified, so no pair is recorded and no samples are
ever emitted for `h`. -/
theorem C9_reportFree_absent_noop (h : ℕ) (now : ℚ) (cpu tid : ℤ)
    (dstack : List IP) (s : ProfilerState)
    (habs : lookupAlloc h s.allocs = none) :
    ReportFree h now cpu tid dstack s = s := by
  rw [ReportFree, habs]

/-- Witness for C9: a free for handle 99 on the fresh profiler is a no-op. -/
theorem C9_witness :
    ReportFree 99 5000 0 100 [7] ⟨[], []⟩ = (⟨[], []⟩ : ProfilerState) :=
  C9_reportFree_absent_noop 99 5000 0 100 [7] ⟨[], []⟩ rfl

/-- C10: in every reachable profiler state, every key of the aggregation
table has alloc and dealloc records that agree on requested size, requested
alignment and allocated size — `ReportFree` copies the three size fields
from the matched allocation record into the deallocation record it hands
to `AddTrace`, and no other path inserts keys. -/
theorem C10_sizes_agree (s : ProfilerState) (hs : Reachable s) :
    ∀ kv ∈ s.table, sizesAgree kv.1 := by
  induction hs with
  | init =>
      intro kv hkv
      simp at hkv
  | malloc s cpu tid st hr ih =>
      intro kv hkv
      exact ih kv hkv
  | free s h now cpu tid dstack hr ih =>
      intro kv hkv
      cases hfind : lookupAlloc h s.allocs with
      | none =>
          rw [ReportFree, hfind] at hkv
          exact ih kv hkv
      | some sample =>
          rw [ReportFree, hfind] at hkv
          simp only at hkv
          rcases mem_tableUpsert hkv with hk | ⟨v, hv⟩
          · rw [hk]
            exact ⟨rfl, rfl, rfl⟩
          · exact ih (kv.1, v) hv

/-- The stack trace of the C10 witness allocation. -/
def c10WitTrace : StackTrace :=
  { sampled_alloc_handle := 7
    requested_size := 16
    requested_alignment := 8
    allocated_size := 16
    depth := 2
    stack := [11, 12]
    allocation_time := 1000
    weight := 512 }

/-- The deallocation record that `ReportFree 7` builds in the C10 witness
run: sizes copied from the matched allocation. -/
def c10WitFree : DeallocationSampleRecord :=
  { weight := 0, requested_size := 16, requested_alignment := 8, allocated_size := 16
    depth := 1, stack := [31], creation_time := 5000, cpu_id := 0, thread_id := 100 }

/-- Witness for C10: the single key inserted by one matched malloc/free
pair has agreeing size fields. -/
theorem C10_witness :
    sizesAgree (Key.mk (recordOfTrace 0 100 c10WitTrace) c10WitFree) :=
  C10_sizes_agree _
    (Reachable.free _ 7 5000 0 100 [31]
      (Reachable.malloc _ 0 100 c10WitTrace Reachable.init))
    (Key.mk (recordOfTrace 0 100 c10WitTrace) c10WitFree,
      updateValue (traceIndex (recordOfTrace 0 100 c10WitTrace) c10WitFree)
        (c10WitFree.creation_time - (recordOfTrace 0 100 c10WitTrace).creation_time)
        Value.init)
    (List.mem_cons_self _ _)

/-- A stack trace with 65 frames, deeper than `kMaxStackDepth = 64`. -/
def deepTrace : StackTrace :=
  { sampled_alloc_handle := 1
    requested_size := 8
    requested_alignment := 0
    allocated_size := 8
    depth := 65
    stack := List.range 65
    allocation_time := 1000
    weight := 256 }

/-- C7 (code bug): `ReportMalloc` copies at most `kMaxStackDepth = 64`
instruction pointers into the in-flight record, but stores the incoming
depth **unclamped** (`allocation.depth = stack_trace.depth` at
deallocation_profiler.cc:338), so for a 65-deep trace the stored record
claims depth 65 while holding only 64 pointers — contradicting the
record's own field documentation ("Number of PC values stored in array
below") and making its hash/equality read past the copied frames. -/
theorem C7_depth_not_truncated :
    (∀ (cpu tid : ℤ) (st : StackTrace),
        (recordOfTrace cpu tid st).stack.length ≤ 64) ∧
      (recordOfTrace 0 100 deepTrace).stack.length = 64 ∧
      (recordOfTrace 0 100 deepTrace).depth = 65 ∧
      ¬ (recordOfTrace 0 100 deepTrace).depth ≤ 64 := by
  refine ⟨?_, ?_, rfl, by norm_num [recordOfTrace, deepTrace]⟩
  · intro cpu tid st
    rw [recordOfTrace]
    simp only [List.length_take, kMaxStackDepth]
    omega
  · simp [recordOfTrace, deepTrace, kMaxStackDepth]

/-- C8 (amended): if `N ≥ 2` pairs, all key-equal to `(a, d)` and falling
in the same matching bucket, each with the same lifetime `L` where
`0 ≤ L ≤ DBL_MAX`, are added by `AddTrace` to a table with no prior entry
for that key, then the slot holds `count = N`, `mean = L`, `min = L`,
`max = L`, and the standard deviation computed at iteration time —
`sqrt(max(0, variance/count))` — is 0.  The nonnegativity of `L` is
forced by the counterexample: `max_life_times_ns` is initialised to 0, so
for a negative lifetime `max` stays 0 and the claim's `max = L` fails
(the upper bound is a double-range artefact of the embedding). -/
theorem C8_constant_lifetimes (a d : DeallocationSampleRecord) (L : ℚ)
    (ps : List (DeallocationSampleRecord × DeallocationSampleRecord)) (t₀ : Table)
    (hN : 2 ≤ ps.length)
    (hkey : ∀ p ∈ ps, sameKey (Key.mk p.1 p.2) (Key.mk a d))
    (hidx : ∀ p ∈ ps, traceIndex p.1 p.2 = traceIndex a d)
    (hlife : ∀ p ∈ ps, p.2.creation_time - p.1.creation_time = L)
    (habs : tableFind (Key.mk a d) t₀ = none)
    (hL0 : 0 ≤ L) (hLm : L ≤ dblMax) :
    (tableFind (Key.mk a d) (ps.foldl (fun t p => AddTrace t p.1 p.2) t₀)).elim False
      (fun v => v.counts (traceIndex a d) = ps.length ∧
        v.mean_life_times_ns (traceIndex a d) = L ∧
        v.min_life_times_ns (traceIndex a d) = L ∧
        v.max_life_times_ns (traceIndex a d) = L ∧
        Real.sqrt (max 0 (v.variance_life_times_ns (traceIndex a d) /
          v.counts (traceIndex a d))) = 0) := by
  cases ps with
  | nil => simp at hN
  | cons p rest =>
      have hkp := hkey p (List.mem_cons_self _ _)
      have hip := hidx p (List.mem_cons_self _ _)
      have hlp := hlife p (List.mem_cons_self _ _)
      have hfind1 : tableFind (Key.mk a d) (AddTrace t₀ p.1 p.2) =
          some (updateValue (traceIndex a d) L Value.init) := by
        rw [addTrace_find hkp t₀, habs, hip, hlp]
        rfl
      have hfresh := updateValue_fresh (traceIndex a d) L hL0 hLm
      obtain ⟨v', hfind', hc', hm', hv', hmin', hmax'⟩ :=
        c8_fold a d L rest
          (fun q hq => hkey q (List.mem_cons_of_mem _ hq))
          (fun q hq => hidx q (List.mem_cons_of_mem _ hq))
          (fun q hq => hlife q (List.mem_cons_of_mem _ hq))
          (AddTrace t₀ p.1 p.2) (updateValue (traceIndex a d) L Value.init) 1
          hfind1 hfresh.1 hfresh.2.1 hfresh.2.2.1 hfresh.2.2.2.1 hfresh.2.2.2.2
      rw [List.foldl_cons, hfind']
      simp only [Option.elim]
      refine ⟨?_, hm', hmin', hmax', ?_⟩
      · rw [hc']
        simp only [List.length_cons]
        push_cast
        ring
      · rw [hv']
        norm_num

/-- The allocation record of the first C8 witness pair (time 1000 ns). -/
def c8WitAlloc : DeallocationSampleRecord :=
  { weight := 2, requested_size := 32, requested_alignment := 0, allocated_size := 32
    depth := 2, stack := [11, 12], creation_time := 1000, cpu_id := 0, thread_id := 100 }

/-- The deallocation record of the first C8 witness pair (time 3000 ns). -/
def c8WitDealloc : DeallocationSampleRecord :=
  { weight := 0, requested_size := 32, requested_alignment := 0, allocated_size := 32
    depth := 1, stack := [21], creation_time := 3000, cpu_id := 0, thread_id := 100 }

/-- The allocation record of the second C8 witness pair: key-equal to the
first but observed at a different time (500 ns). -/
def c8WitAlloc2 : DeallocationSampleRecord :=
  { weight := 2, requested_size := 32, requested_alignment := 0, allocated_size := 32
    depth := 2, stack := [11, 12], creation_time := 500, cpu_id := 0, thread_id := 100 }

/-- The deallocation record of the second C8 witness pair (time 2500 ns). -/
def c8WitDealloc2 : DeallocationSampleRecord :=
  { weight := 0, requested_size := 32, requested_alignment := 0, allocated_size := 32
    depth := 1, stack := [21], creation_time := 2500, cpu_id := 0, thread_id := 100 }

/-- The two C8 witness pairs, both with lifetime 2000 ns. -/
def c8WitPairs : List (DeallocationSampleRecord × DeallocationSampleRecord) :=
  [(c8WitAlloc, c8WitDealloc), (c8WitAlloc2, c8WitDealloc2)]

/-- Witness for C8: two pairs with equal lifetime 2000 ns aggregated into
the empty table give count 2, mean = min = max = 2000 and stddev 0. -/
theorem C8_witness :
    (tableFind (Key.mk c8WitAlloc c8WitDealloc)
        (c8WitPairs.foldl (fun t p => AddTrace t p.1 p.2) [])).elim False
      (fun v => v.counts (traceIndex c8WitAlloc c8WitDealloc) = c8WitPairs.length ∧
        v.mean_life_times_ns (traceIndex c8WitAlloc c8WitDealloc) = 2000 ∧
        v.min_life_times_ns (traceIndex c8WitAlloc c8WitDealloc) = 2000 ∧
        v.max_life_times_ns (traceIndex c8WitAlloc c8WitDealloc) = 2000 ∧
        Real.sqrt (max 0 (v.variance_life_times_ns (traceIndex c8WitAlloc c8WitDealloc) /
          v.counts (traceIndex c8WitAlloc c8WitDealloc))) = 0) :=
  C8_constant_lifetimes c8WitAlloc c8WitDealloc 2000 c8WitPairs []
    (by norm_num [c8WitPairs])
    (by decide)
    (by decide)
    (by intro p hp
        simp only [c8WitPairs, List.mem_cons, List.not_mem_nil, or_false] at hp
        rcases hp with rfl | rfl <;>
          norm_num [c8WitAlloc, c8WitDealloc, c8WitAlloc2, c8WitDealloc2])
    rfl
    (by norm_num)
    (by norm_num [dblMax])

/-- The allocation record of the C8 counterexample (creation time 5 ns). -/
def c8CexAlloc : DeallocationSampleRecord :=
  { weight := 1, requested_size := 8, requested_alignment := 0, allocated_size := 8
    depth := 1, stack := [51], creation_time := 5, cpu_id := 0, thread_id := 100 }

/-- The deallocation record of the C8 counterexample (creation time 0 ns,
i.e. clock skew: the free appears to precede the allocation). -/
def c8CexDealloc : DeallocationSampleRecord :=
  { weight := 0, requested_size := 8, requested_alignment := 0, allocated_size := 8
    depth := 1, stack := [52], creation_time := 0, cpu_id := 0, thread_id := 100 }

/-- C8 counterexample: two pairs with the same negative lifetime
`L = −5` (same key, same bucket 11).  After aggregation the slot has
`count = 2` and `mean = −5 = L`, but `max = 0 ≠ L`, refuting the claim as
stated for negative lifetimes. -/
theorem C8_counterexample :
    (tableFind (Key.mk c8CexAlloc c8CexDealloc)
        (AddTrace (AddTrace [] c8CexAlloc c8CexDealloc) c8CexAlloc c8CexDealloc)).map
      (fun v => (v.counts 11, v.mean_life_times_ns 11, v.max_life_times_ns 11)) =
      some (2, -5, 0) ∧ (0 : ℚ) ≠ -5 := by
  constructor
  · norm_num [AddTrace, tableUpsert, tableFind, sameKey, sameRecord, updateValue,
      Value.init, Function.update, traceIndex, caseIndex, ComputeIndex,
      CpuThreadMatchingStatus.value, RpcMatchingStatus.ofIds,
      RpcMatchingStatus.ComputeValue, c8CexAlloc, c8CexDealloc, dblMax]
  · norm_num

theorem pairsOf_length (l : List (ℕ × Key × Value × Case)) :
    (pairsOf l).length = 2 * l.length := by
  induction l with
  | nil => rfl
  | cons p l ih =>
      obtain ⟨pid, k, v, c⟩ := p
      simp [pairsOf, ih]
      omega

/-- C1 (amended): `Iterate` emits, for each populated matching bucket of
each entry in iteration order, exactly two consecutive samples sharing the
same `profile_id`: the first carries the allocation stack and its depth
with the (nonnegative) emitted count `c`, the second carries the
deallocation stack and its depth with the negated count `−c`, and all
other fields of the two samples are equal; `profile_id` starts at 1 and
increments once per emitted pair.  The claim's strict positivity of the
first sample's count fails in the degenerate rounding case (see the
counterexample): the shared count is only nonnegative in general. -/
theorem C1_pair_structure :
    (∀ t : Table, Iterate t = pairsOf ((populatedSlots t).enumFrom 1)) ∧
      (∀ t : Table, (Iterate t).length = 2 * (populatedSlots t).length) ∧
      (∀ (k : Key) (v : Value) (c : Case) (pid : ℕ),
        sampleD k v c pid = { sampleA k v c pid with
          count := -1 * sampleCount k v c
          depth := k.dealloc.depth
          stack := k.dealloc.stack } ∧
        (sampleA k v c pid).count = sampleCount k v c ∧
        (sampleA k v c pid).depth = k.alloc.depth ∧
        (sampleA k v c pid).stack = k.alloc.stack ∧
        (sampleA k v c pid).profile_id = pid ∧
        (sampleD k v c pid).profile_id = pid ∧
        (sampleD k v c pid).count = -(sampleA k v c pid).count ∧
        0 ≤ sampleCount k v c) := by
  refine ⟨Iterate_eq_pairs, fun t => ?_, fun k v c pid => ?_⟩
  · rw [Iterate_eq_pairs, pairsOf_length, List.enumFrom_length]
  · refine ⟨rfl, rfl, rfl, rfl, rfl, rfl, ?_, Int.natCast_nonneg _⟩
    show -1 * sampleCount k v c = -(sampleCount k v c)
    ring

/-- The allocation record of the C1 counterexample: its `weight` is 0
(a zero raw sampler weight), so the emitted byte total rounds to 0. -/
def c1CexAlloc : DeallocationSampleRecord :=
  { weight := 0, requested_size := 4, requested_alignment := 0, allocated_size := 100
    depth := 1, stack := [41], creation_time := 0, cpu_id := 0, thread_id := 1 }

/-- The deallocation record of the C1 counterexample. -/
def c1CexDealloc : DeallocationSampleRecord :=
  { weight := 0, requested_size := 4, requested_alignment := 0, allocated_size := 100
    depth := 1, stack := [42], creation_time := 1000, cpu_id := 1, thread_id := 2 }

/-- The C1 counterexample table value: one pair aggregated in bucket 2. -/
def c1CexValue : Value := updateValue 2 1000 Value.init

/-- C1 counterexample: a populated bucket (slot count 1) whose emitted
pair consists of two samples with count 0 — the first sample's count is
not positive, refuting the claim as stated. -/
theorem C1_counterexample :
    c1CexValue.counts 2 = 1 ∧
      (Iterate [(Key.mk c1CexAlloc c1CexDealloc, c1CexValue)]).map
        (fun s => s.count) = [0, 0] := by
  constructor
  · norm_num [c1CexValue, updateValue, Value.init, Function.update]
  · norm_num [Iterate, entryStep, caseStep, kAllCases, caseIndex, ComputeIndex,
      CpuThreadMatchingStatus.value, RpcMatchingStatus.ofIds,
      RpcMatchingStatus.ComputeValue, c1CexValue, c1CexAlloc, c1CexDealloc,
      updateValue, Value.init, Function.update, sampleA, sampleD, baseSample,
      sampleCount, emittedCount, roundedBytes, lroundQ]

/-- C2 (amended): for a populated slot (slot count ≥ 1) the emitted
pre-sign count is at least 1 **provided** the byte product
`slot.count * alloc.weight * allocated_size` is at least `1/2` (so that
`lround` yields at least one byte — e.g. whenever `alloc.weight ≥ 1`),
the product stays within the `long` range, and `allocated_size ≥ 1`.
Without the product bound the emitted count can be 0 (see the
counterexample). -/
theorem C2_count_positive (k : Key) (v : Value) (c : Case) (pid : ℕ)
    (h1 : 1 ≤ v.counts (caseIndex c))
    (h2 : 1 / 2 ≤ v.counts (caseIndex c) * k.alloc.weight * k.alloc.allocated_size)
    (h3 : v.counts (caseIndex c) * k.alloc.weight * k.alloc.allocated_size ≤ 2 ^ 63 - 1)
    (h4 : 1 ≤ k.alloc.allocated_size) :
    1 ≤ (sampleA k v c pid).count := by
  have hc := emittedCount_pos (v.counts (caseIndex c)) k.alloc.weight
    k.alloc.allocated_size h4 h2 h3
  show (1 : ℤ) ≤ sampleCount k v c
  rw [sampleCount]
  exact_mod_cast hc

/-- The allocation record of the C2 witness (weight 1, 32 bytes). -/
def c2WitAlloc : DeallocationSampleRecord :=
  { weight := 1, requested_size := 32, requested_alignment := 0, allocated_size := 32
    depth := 1, stack := [61], creation_time := 0, cpu_id := 0, thread_id := 1 }

/-- The deallocation record of the C2 witness. -/
def c2WitDealloc : DeallocationSampleRecord :=
  { weight := 0, requested_size := 32, requested_alignment := 0, allocated_size := 32
    depth := 1, stack := [62], creation_time := 900, cpu_id := 0, thread_id := 1 }

/-- The C2 witness table value: one pair aggregated in bucket 2. -/
def c2WitValue : Value := updateValue 2 900 Value.init

/-- Witness for C2: with slot count 1, weight 1 and 32 allocated bytes the
emitted count is at least 1. -/
theorem C2_witness :
    1 ≤ (sampleA (Key.mk c2WitAlloc c2WitDealloc) c2WitValue
      (⟨false, false⟩, RpcMatchingStatus.ofIds 0 0) 1).count :=
  C2_count_positive (Key.mk c2WitAlloc c2WitDealloc) c2WitValue
    (⟨false, false⟩, RpcMatchingStatus.ofIds 0 0) 1
    (by norm_num [c2WitValue, updateValue, Value.init, Function.update, caseIndex,
      ComputeIndex, CpuThreadMatchingStatus.value, RpcMatchingStatus.ofIds,
      RpcMatchingStatus.ComputeValue])
    (by norm_num [c2WitValue, c2WitAlloc, updateValue, Value.init, Function.update,
      caseIndex, ComputeIndex, CpuThreadMatchingStatus.value, RpcMatchingStatus.ofIds,
      RpcMatchingStatus.ComputeValue])
    (by norm_num [c2WitValue, c2WitAlloc, updateValue, Value.init, Function.update,
      caseIndex, ComputeIndex, CpuThreadMatchingStatus.value, RpcMatchingStatus.ofIds,
      RpcMatchingStatus.ComputeValue])
    (by norm_num [c2WitAlloc])

/-- The allocation record of the C2 counterexample: weight `1/1000`
(raw sampler weight 1 over requested size 999). -/
def c2CexAlloc : DeallocationSampleRecord :=
  { weight := 1 / 1000, requested_size := 999, requested_alignment := 0
    allocated_size := 100, depth := 1, stack := [71], creation_time := 0
    cpu_id := 0, thread_id := 1 }

/-- The deallocation record of the C2 counterexample. -/
def c2CexDealloc : DeallocationSampleRecord :=
  { weight := 0, requested_size := 999, requested_alignment := 0
    allocated_size := 100, depth := 1, stack := [72], creation_time := 1000
    cpu_id := 0, thread_id := 1 }

/-- The C2 counterexample table value: one pair aggregated in bucket 2. -/
def c2CexValue : Value := updateValue 2 1000 Value.init

/-- C2 counterexample: a populated slot with count 1 whose emitted pair
carries count 0 — `lround(1 * (1/1000) * 100) = 0` bytes, so the ceiling
division yields 0, refuting "emitted count ≥ 1" as stated. -/
theorem C2_counterexample :
    c2CexValue.counts 2 = 1 ∧
      (Iterate [(Key.mk c2CexAlloc c2CexDealloc, c2CexValue)]).map
        (fun s => s.count) = [0, 0] := by
  constructor
  · norm_num [c2CexValue, updateValue, Value.init, Function.update]
  · norm_num [Iterate, entryStep, caseStep, kAllCases, caseIndex, ComputeIndex,
      CpuThreadMatchingStatus.value, RpcMatchingStatus.ofIds,
      RpcMatchingStatus.ComputeValue, c2CexValue, c2CexAlloc, c2CexDealloc,
      updateValue, Value.init, Function.update, sampleA, sampleD, baseSample,
      sampleCount, emittedCount, roundedBytes, lroundQ]

/-- C3 (amended): the emitted count is
`ceil(lround(slot.count * alloc.weight * allocated_size) / allocated_size)`
— the byte total rounded to a whole number of bytes and then rounded **up**
to whole objects by the ceiling division `(bytes + size − 1) / size` — not
`round(slot.count * weight * size / size)` as the claim stated; the emitted
`sum` of both samples of the pair does equal `count * allocated_size`. -/
theorem C3_count_formula (k : Key) (v : Value) (c : Case) (pid : ℕ) :
    (sampleA k v c pid).count =
        ((roundedBytes (v.counts (caseIndex c) * k.alloc.weight * k.alloc.allocated_size) +
            k.alloc.allocated_size - 1) / k.alloc.allocated_size : ℕ) ∧
      (sampleA k v c pid).sum = (sampleA k v c pid).count * k.alloc.allocated_size ∧
      (sampleD k v c pid).sum = (sampleA k v c pid).count * k.alloc.allocated_size :=
  ⟨rfl, rfl, rfl⟩

/-- The allocation record of the C3 counterexample (weight `3/10`). -/
def c3CexAlloc : DeallocationSampleRecord :=
  { weight := 3 / 10, requested_size := 4, requested_alignment := 0
    allocated_size := 100, depth := 1, stack := [81], creation_time := 0
    cpu_id := 0, thread_id := 1 }

/-- The deallocation record of the C3 counterexample. -/
def c3CexDealloc : DeallocationSampleRecord :=
  { weight := 0, requested_size := 4, requested_alignment := 0
    allocated_size := 100, depth := 1, stack := [82], creation_time := 1000
    cpu_id := 0, thread_id := 1 }

/-- The C3 counterexample table value: one pair aggregated in bucket 2. -/
def c3CexValue : Value := updateValue 2 1000 Value.init

/-- C3 counterexample: with slot count 1, weight `3/10` and 100 allocated
bytes, the code emits count `ceil(lround(30)/100) = 1`, while the claim's
formula gives `round(1 * 3/10 * 100 / 100) = round(3/10) = 0`. -/
theorem C3_counterexample :
    (sampleA (Key.mk c3CexAlloc c3CexDealloc) c3CexValue
        (⟨false, false⟩, RpcMatchingStatus.ofIds 0 0) 1).count = 1 ∧
      specRoundCount (c3CexValue.counts 2) c3CexAlloc.weight
        c3CexAlloc.allocated_size = 0 ∧
      (1 : ℤ) ≠ 0 := by
  refine ⟨?_, ?_, by norm_num⟩
  · norm_num [sampleA, baseSample, sampleCount, emittedCount, roundedBytes, lroundQ,
      caseIndex, ComputeIndex, CpuThreadMatchingStatus.value, RpcMatchingStatus.ofIds,
      RpcMatchingStatus.ComputeValue, c3CexValue, c3CexAlloc, updateValue, Value.init,
      Function.update]
  · norm_num [specRoundCount, lroundQ, c3CexValue, c3CexAlloc, updateValue,
      Value.init, Function.update]

end DeallocProf
